import Mathlib

/-!
Verification of the cache-aside task service (Express + Redis + Sequelize).

The service mediates CRUD operations on a "tasks" collection between callers,
a Source of Truth (the relational store, modelled as a list of records plus an
id counter) and a Cache (a single snapshot key `tasks:all` holding a serialized
copy of the full collection with a TTL).  Handlers are embedded as pure state
transformers that also emit an event trace recording every interaction with
the two backing systems; cache failures are injected through a fault record.
-/

namespace CacheAside

/-- A task record: identifier assigned by the source of truth, a textual
description and a completion flag. -/
structure Task where
  id : Nat
  description : String
  completed : Bool
deriving DecidableEq, Repr

/-! ### Snapshot serialization

Modelled from the spec: the service serializes the task collection with the
host language's JSON library (`JSON.stringify` / `JSON.parse`), which is not
part of this repository's sources.  The spec only requires a serialization of
the ordered sequence of records with fields `id`, `description`, `completed`
whose deserialization is its inverse; we embed it as a concrete JSON-shaped
byte (character) format together with an executable parser. -/

/-- Decimal digit characters of a natural number, most significant first. -/
def natChars (n : Nat) : List Char :=
  if h : n < 10 then [Char.ofNat (48 + n)]
  else natChars (n / 10) ++ [Char.ofNat (48 + n % 10)]
termination_by n
decreasing_by exact Nat.div_lt_self (by omega) (by omega)

/-- JSON string escaping: a quote or backslash is preceded by a backslash. -/
def escapeChars : List Char → List Char
  | [] => []
  | c :: cs =>
      if c == '"' || c == '\\' then '\\' :: c :: escapeChars cs
      else c :: escapeChars cs

/-- Opening of a serialized task object up to the value of the id field. -/
def objOpen : List Char := "\x7b\"id\":".toList

/-- Separator between the id value and the description string opening quote. -/
def descOpen : List Char := ",\"description\":\"".toList

/-- Separator between the description closing quote and the completed value
(the closing quote itself is consumed by the string parser). -/
def compPre : List Char := ",\"completed\":".toList

/-- Closing brace of a serialized task object. -/
def objClose : List Char := "\x7d".toList

/-- Serialization of one task record as a JSON object. -/
def taskChars (t : Task) : List Char :=
  objOpen ++ natChars t.id ++ descOpen ++ escapeChars t.description.toList
    ++ '"' :: compPre
    ++ (if t.completed then "true".toList else "false".toList) ++ objClose

/-- Comma-separated serializations of the records of a collection. -/
def itemsChars : List Task → List Char
  | [] => []
  | [t] => taskChars t
  | t :: ts => taskChars t ++ ',' :: itemsChars ts

/-- Serialization of the whole collection: the JSON array of its records,
in order.  This is the exact byte content stored under the snapshot key. -/
def serializeTasks (ts : List Task) : String :=
  String.mk ('[' :: itemsChars ts ++ [']'])

/-- Accumulating decimal value of a digit character list. -/
def digitsVal (acc : Nat) (cs : List Char) : Nat :=
  cs.foldl (fun a c => a * 10 + (c.toNat - 48)) acc

/-- Consume leading decimal digits, returning the rest and the value. -/
def parseNatAux : List Char → Nat → List Char × Nat
  | [], acc => ([], acc)
  | c :: cs, acc =>
      if c.isDigit then parseNatAux cs (acc * 10 + (c.toNat - 48))
      else (c :: cs, acc)

/-- Parse a decimal natural number (at least one digit). -/
def parseNat : List Char → Option (Nat × List Char)
  | [] => none
  | c :: cs =>
      if c.isDigit then
        let p := parseNatAux cs (c.toNat - 48)
        some (p.2, p.1)
      else none

/-- Parse JSON string content up to and including the closing quote,
undoing the escaping of `escapeChars`. -/
def parseStrChars : List Char → Option (List Char × List Char)
  | [] => none
  | c :: rest =>
      if c == '"' then some ([], rest)
      else if c == '\\' then
        match rest with
        | [] => none
        | d :: rest2 =>
            match parseStrChars rest2 with
            | none => none
            | some (sc, r) => some (d :: sc, r)
      else
        match parseStrChars rest with
        | none => none
        | some (sc, r) => some (c :: sc, r)

/-- Consume an expected literal character sequence. -/
def dropLit : List Char → List Char → Option (List Char)
  | [], cs => some cs
  | _ :: _, [] => none
  | p :: ps, c :: cs => if c == p then dropLit ps cs else none

/-- Parse a JSON boolean literal. -/
def parseBool (cs : List Char) : Option (Bool × List Char) :=
  match dropLit ("true".toList) cs with
  | some r => some (true, r)
  | none =>
      match dropLit ("false".toList) cs with
      | some r => some (false, r)
      | none => none

/-- Parse one serialized task object, returning it and the remaining input. -/
def parseTask (cs : List Char) : Option (Task × List Char) :=
  (dropLit objOpen cs).bind fun cs1 =>
  (parseNat cs1).bind fun p =>
  (dropLit descOpen p.2).bind fun cs3 =>
  (parseStrChars cs3).bind fun q =>
  (dropLit compPre q.2).bind fun cs5 =>
  (parseBool cs5).bind fun r =>
  (dropLit objClose r.2).bind fun cs7 =>
  some (⟨p.1, String.mk q.1, r.1⟩, cs7)

/-- Parse a non-empty comma-separated task list followed by the closing
bracket at end of input; the fuel bounds the number of items. -/
def parseItems : Nat → List Char → Option (List Task)
  | 0, _ => none
  | fuel + 1, cs =>
      (parseTask cs).bind fun pr =>
        match pr.2 with
        | [] => none
        | r :: rest2 =>
            if r == ']' then
              if rest2 = [] then some [pr.1] else none
            else if r == ',' then
              (parseItems fuel rest2).map (fun ts => pr.1 :: ts)
            else none

/-- Deserialization of a stored snapshot (the inverse of `serializeTasks`). -/
def deserializeTasks (s : String) : Option (List Task) :=
  match s.toList with
  | '[' :: rest => if rest = [']'] then some [] else parseItems rest.length rest
  | _ => none

/-! ### System state and handlers

Embedding of the Express handlers in `server.js`.  The Source of Truth is a
list of task rows in natural order together with the next identifier it will
assign; the Cache is the optional snapshot entry under the single key
`tasks:all`.  Each handler returns the HTTP response, the post-state, and the
trace of backing-system events it performed.  The `CacheFaults` record injects
Redis failures (a failed operation throws in the source; `get`/`setEx`
failures are caught by the list handler's try/catch, while `del` failures in
the mutation handlers propagate to the framework, which — modelled from the
spec, the framework is not part of the sources — returns an internal error
response). -/

/-- A cached snapshot entry: the serialized bytes and the TTL in seconds. -/
structure CacheEntry where
  value : String
  ttl : Nat
deriving DecidableEq, Repr

/-- System state: SoT rows, next SoT-assigned id, and the snapshot entry. -/
structure St where
  sot : List Task
  nextId : Nat
  cache : Option CacheEntry
deriving DecidableEq, Repr

/-- Injected cache failures: whether `get`, `setEx` and `del` throw. -/
structure CacheFaults where
  getFails : Bool
  setFails : Bool
  delFails : Bool
deriving DecidableEq, Repr

/-- The fault assignment where every cache operation succeeds. -/
def noFaults : CacheFaults := ⟨false, false, false⟩

/-- Backing-system events a handler can perform, in order. -/
inductive Ev where
  | cacheGet
  | cacheSet (key : String) (ttl : Nat) (value : String)
  | cacheDel (key : String)
  | sotFindAll
  | sotInsert
  | sotFindByPk (id : Nat)
  | sotUpdate (id : Nat)
  | sotDestroy (id : Nat)
deriving DecidableEq, Repr

/-- Response bodies: a task list, a single task, an error object, or empty. -/
inductive Body where
  | tasksB (ts : List Task)
  | taskB (t : Task)
  | errB (msg : String)
  | emptyB
deriving DecidableEq, Repr

/-- An HTTP response: status code and body. -/
structure Resp where
  status : Nat
  body : Body
deriving DecidableEq, Repr

/-- The serialized bytes `res.json` sends for a body (an error object is
rendered as its message; an empty body sends nothing). -/
def renderBody : Body → String
  | Body.tasksB ts => serializeTasks ts
  | Body.taskB t => String.mk (taskChars t)
  | Body.errB msg => msg
  | Body.emptyB => ""

/-- The single snapshot key. -/
def cacheKey : String := "tasks:all"

/-- The miss path of `GET /tasks`: query the SoT with `findAll`, store the
serialized result under the snapshot key with `setEx` and TTL 3600, and
return it; a `setEx` failure is caught and becomes a 500 response. -/
def listMiss (f : CacheFaults) (s : St) : Resp × St × List Ev :=
  if f.setFails then
    (⟨500, Body.errB "Erro ao buscar tarefas"⟩, s,
      [Ev.cacheGet, Ev.sotFindAll, Ev.cacheSet cacheKey 3600 (serializeTasks s.sot)])
  else
    (⟨200, Body.tasksB s.sot⟩,
      { s with cache := some ⟨serializeTasks s.sot, 3600⟩ },
      [Ev.cacheGet, Ev.sotFindAll, Ev.cacheSet cacheKey 3600 (serializeTasks s.sot)])

/-- `GET /tasks`: try the cache first; a truthy cached string is parsed and
returned (an unparseable one throws in `JSON.parse` and is caught as 500),
an absent or falsy one falls through to the miss path; a `get` failure is
caught as a 500 response before the SoT is consulted. -/
def listAll (f : CacheFaults) (s : St) : Resp × St × List Ev :=
  if f.getFails then
    (⟨500, Body.errB "Erro ao buscar tarefas"⟩, s, [Ev.cacheGet])
  else
    match s.cache with
    | some e =>
        if e.value = "" then listMiss f s
        else
          match deserializeTasks e.value with
          | some ts => (⟨200, Body.tasksB ts⟩, s, [Ev.cacheGet])
          | none => (⟨500, Body.errB "Erro ao buscar tarefas"⟩, s, [Ev.cacheGet])
    | none => listMiss f s

/-- Truthiness test of the request's `description` field: absent or empty is
falsy and rejected by the create handler. -/
def descFalsy : Option String → Bool
  | none => true
  | some d => d == ""

/-- `POST /tasks`: reject a falsy description with 400 and no side effect;
otherwise insert `(description, completed := false)` in the SoT, delete the
snapshot key, and answer 201 with the created record.  The request's
`completed` field is never read.  A `del` failure leaves the SoT insertion in
place and surfaces as an internal error. -/
def createT (f : CacheFaults) (s : St) (description : Option String)
    (completedReq : Option Bool) : Resp × St × List Ev :=
  if descFalsy description then
    (⟨400, Body.errB "Descrição obrigatória"⟩, s, [])
  else
    let t : Task := ⟨s.nextId, description.getD "", false⟩
    let s1 : St := { s with sot := s.sot ++ [t], nextId := s.nextId + 1 }
    if f.delFails then
      (⟨500, Body.errB "Internal Server Error"⟩, s1,
        [Ev.sotInsert, Ev.cacheDel cacheKey])
    else
      (⟨201, Body.taskB t⟩, { s1 with cache := none },
        [Ev.sotInsert, Ev.cacheDel cacheKey])

/-- `GET /tasks/:id`: direct SoT lookup by primary key, no cache involved. -/
def getOne (s : St) (id : Nat) : Resp × St × List Ev :=
  match s.sot.find? (fun t => t.id == id) with
  | none => (⟨404, Body.errB "Tarefa não encontrada"⟩, s, [Ev.sotFindByPk id])
  | some t => (⟨200, Body.taskB t⟩, s, [Ev.sotFindByPk id])

/-- `PUT /tasks/:id`: load by primary key (404 when missing), apply the
provided fields, persist, delete the snapshot key, answer 200 with the
updated record.  A `del` failure leaves the SoT update in place and surfaces
as an internal error. -/
def updateT (f : CacheFaults) (s : St) (id : Nat) (description : Option String)
    (completed : Option Bool) : Resp × St × List Ev :=
  match s.sot.find? (fun t => t.id == id) with
  | none => (⟨404, Body.errB "Tarefa não encontrada"⟩, s, [Ev.sotFindByPk id])
  | some t =>
      let t' : Task :=
        ⟨t.id, description.getD t.description, completed.getD t.completed⟩
      let s1 : St :=
        { s with sot := s.sot.map (fun u => if u.id == id then t' else u) }
      if f.delFails then
        (⟨500, Body.errB "Internal Server Error"⟩, s1,
          [Ev.sotFindByPk id, Ev.sotUpdate id, Ev.cacheDel cacheKey])
      else
        (⟨200, Body.taskB t'⟩, { s1 with cache := none },
          [Ev.sotFindByPk id, Ev.sotUpdate id, Ev.cacheDel cacheKey])

/-- `DELETE /tasks/:id`: destroy by id in the SoT; a zero count is 404 with
no eviction, otherwise delete the snapshot key and answer 204 with no body.
A `del` failure leaves the SoT deletion in place and surfaces as an internal
error. -/
def deleteT (f : CacheFaults) (s : St) (id : Nat) : Resp × St × List Ev :=
  if s.sot.any (fun t => t.id == id) then
    let s1 : St := { s with sot := s.sot.filter (fun t => !(t.id == id)) }
    if f.delFails then
      (⟨500, Body.errB "Internal Server Error"⟩, s1,
        [Ev.sotDestroy id, Ev.cacheDel cacheKey])
    else
      (⟨204, Body.emptyB⟩, { s1 with cache := none },
        [Ev.sotDestroy id, Ev.cacheDel cacheKey])
  else
    (⟨404, Body.errB "Tarefa não encontrada"⟩, s, [Ev.sotDestroy id])

/-! ### Round-trip of the snapshot serialization -/

theorem digitChar_isDigit : ∀ d, d < 10 → (Char.ofNat (48 + d)).isDigit = true := by
  decide

theorem digitChar_toNat : ∀ d, d < 10 → (Char.ofNat (48 + d)).toNat = 48 + d := by
  decide

theorem natChars_ne_nil (n : Nat) : natChars n ≠ [] := by
  rw [natChars]
  split <;> simp

theorem natChars_digits (n : Nat) : ∀ c ∈ natChars n, c.isDigit = true := by
  induction n using Nat.strong_induction_on with
  | _ n ih =>
      rw [natChars]
      split
      · intro c hc
        simp only [List.mem_singleton] at hc
        subst hc
        exact digitChar_isDigit n (by omega)
      · intro c hc
        rcases List.mem_append.mp hc with h | h
        · exact ih (n / 10) (Nat.div_lt_self (by omega) (by omega)) c h
        · simp only [List.mem_singleton] at h
          subst h
          exact digitChar_isDigit (n % 10) (Nat.mod_lt _ (by omega))

theorem digitsVal_natChars (n : Nat) : digitsVal 0 (natChars n) = n := by
  induction n using Nat.strong_induction_on with
  | _ n ih =>
      rw [natChars]
      split
      · rename_i h
        simp only [digitsVal, List.foldl_cons, List.foldl_nil]
        rw [digitChar_toNat n (by omega)]
        omega
      · rename_i h
        simp only [digitsVal, List.foldl_append, List.foldl_cons, List.foldl_nil]
        have hrec := ih (n / 10) (Nat.div_lt_self (by omega) (by omega))
        simp only [digitsVal] at hrec
        rw [hrec, digitChar_toNat (n % 10) (Nat.mod_lt _ (by omega))]
        omega

theorem parseNatAux_spec : ∀ (digs rest : List Char) (acc : Nat),
    (∀ c ∈ digs, c.isDigit = true) →
    (∀ c, rest.head? = some c → c.isDigit = false) →
    parseNatAux (digs ++ rest) acc = (rest, digitsVal acc digs) := by
  intro digs
  induction digs with
  | nil =>
      intro rest acc _ hrest
      cases rest with
      | nil => simp [parseNatAux, digitsVal]
      | cons r rs =>
          have : r.isDigit = false := hrest r rfl
          simp [parseNatAux, this, digitsVal]
  | cons c cs ih =>
      intro rest acc hdigs hrest
      have hc : c.isDigit = true := hdigs c (List.mem_cons_self _ _)
      simp only [List.cons_append, parseNatAux, hc, if_true, List.append_eq]
      rw [ih rest _ (fun x hx => hdigs x (List.mem_cons_of_mem _ hx)) hrest]
      simp [digitsVal]

theorem parseNat_natChars (n : Nat) (rest : List Char)
    (hrest : ∀ c, rest.head? = some c → c.isDigit = false) :
    parseNat (natChars n ++ rest) = some (n, rest) := by
  rcases hne : natChars n with _ | ⟨c0, ds⟩
  · exact absurd hne (natChars_ne_nil n)
  · have hdigs := natChars_digits n
    rw [hne] at hdigs
    have hc0 : c0.isDigit = true := hdigs c0 (List.mem_cons_self _ _)
    simp only [List.cons_append, parseNat, hc0, if_true]
    rw [parseNatAux_spec ds rest _ (fun x hx => hdigs x (List.mem_cons_of_mem _ hx)) hrest]
    have hval : digitsVal 0 (natChars n) = n := digitsVal_natChars n
    rw [hne] at hval
    simp only [digitsVal, List.foldl_cons, Nat.zero_mul, Nat.zero_add] at hval
    simp [digitsVal, hval]

theorem parseStrChars_quote (rest : List Char) :
    parseStrChars ('"' :: rest) = some ([], rest) := by
  rw [parseStrChars.eq_def]
  simp

theorem parseStrChars_escaped (d : Char) (rest : List Char) :
    parseStrChars ('\\' :: d :: rest) =
      match parseStrChars rest with
      | none => none
      | some (sc, r) => some (d :: sc, r) := by
  rw [parseStrChars.eq_def]
  simp

theorem parseStrChars_plain (c : Char) (rest : List Char)
    (h1 : (c == '"') = false) (h2 : (c == '\\') = false) :
    parseStrChars (c :: rest) =
      match parseStrChars rest with
      | none => none
      | some (sc, r) => some (c :: sc, r) := by
  rw [parseStrChars.eq_def]
  simp [h1, h2]

theorem parseStrChars_escape (s rest : List Char) :
    parseStrChars (escapeChars s ++ '"' :: rest) = some (s, rest) := by
  induction s with
  | nil =>
      simp only [escapeChars, List.nil_append]
      exact parseStrChars_quote rest
  | cons c cs ih =>
      by_cases hc : (c == '"' || c == '\\') = true
      · have hesc : escapeChars (c :: cs) = '\\' :: c :: escapeChars cs := by
          simp [escapeChars, hc]
        rw [hesc, List.cons_append, List.cons_append, parseStrChars_escaped, ih]
      · have hq : (c == '"') = false := by
          rcases Bool.or_eq_false_iff.mp (Bool.eq_false_iff.mpr hc) with ⟨h1, _⟩
          exact h1
        have hb : (c == '\\') = false := by
          rcases Bool.or_eq_false_iff.mp (Bool.eq_false_iff.mpr hc) with ⟨_, h2⟩
          exact h2
        have hesc : escapeChars (c :: cs) = c :: escapeChars cs := by
          simp [escapeChars, hq, hb]
        rw [hesc, List.cons_append, parseStrChars_plain c _ hq hb, ih]

theorem dropLit_append (p rest : List Char) : dropLit p (p ++ rest) = some rest := by
  induction p with
  | nil => simp [dropLit]
  | cons c cs ih => simp [dropLit, ih]

theorem parseBool_true (rest : List Char) :
    parseBool ("true".toList ++ rest) = some (true, rest) := by
  simp only [parseBool]
  rw [dropLit_append]

theorem parseBool_false (rest : List Char) :
    parseBool ("false".toList ++ rest) = some (false, rest) := by
  have h : dropLit ("true".toList) ("false".toList ++ rest) = none := by
    simp [dropLit, String.toList]
  simp only [parseBool]
  rw [h, dropLit_append]

theorem string_mk_toList (s : String) : String.mk s.toList = s := rfl

theorem parseTask_taskChars (t : Task) (rest : List Char) :
    parseTask (taskChars t ++ rest) = some (t, rest) := by
  have hdesc : ∀ (X : List Char) (c : Char),
      (descOpen ++ X).head? = some c → c.isDigit = false := by
    intro X c h
    simp [descOpen, String.toList] at h
    subst h
    decide
  simp only [taskChars, List.append_assoc, List.cons_append]
  simp only [parseTask]
  rw [dropLit_append]
  simp only [Option.some_bind]
  rw [parseNat_natChars t.id _ (hdesc _)]
  simp only [Option.some_bind]
  rw [dropLit_append]
  simp only [Option.some_bind]
  rw [parseStrChars_escape]
  simp only [Option.some_bind]
  rw [dropLit_append]
  simp only [Option.some_bind]
  cases hcomp : t.completed with
  | true =>
      simp only [if_true]
      rw [parseBool_true]
      simp only [Option.some_bind]
      rw [dropLit_append]
      simp only [Option.some_bind, Option.some.injEq, Prod.mk.injEq]
      refine ⟨?_, trivial⟩
      rcases t with ⟨i, ⟨dl⟩, b⟩
      simp_all
  | false =>
      simp only [Bool.false_eq_true, if_false]
      rw [parseBool_false]
      simp only [Option.some_bind]
      rw [dropLit_append]
      simp only [Option.some_bind, Option.some.injEq, Prod.mk.injEq]
      refine ⟨?_, trivial⟩
      rcases t with ⟨i, ⟨dl⟩, b⟩
      simp_all

theorem taskChars_length_pos (t : Task) : 1 ≤ (taskChars t).length := by
  simp [taskChars, objOpen, String.toList]

theorem itemsChars_length_ge :
    ∀ ts : List Task, ts ≠ [] → ts.length ≤ (itemsChars ts).length := by
  intro ts
  induction ts with
  | nil => intro h; exact absurd rfl h
  | cons t ts' ih =>
      intro _
      cases ts' with
      | nil =>
          simp only [itemsChars, List.length_singleton]
          exact taskChars_length_pos t
      | cons t2 ts'' =>
          have h1 := ih (by simp)
          have h2 := taskChars_length_pos t
          simp only [itemsChars, List.length_append, List.length_cons] at *
          omega

theorem parseItems_itemsChars :
    ∀ (ts : List Task), ts ≠ [] → ∀ fuel, ts.length ≤ fuel →
      parseItems fuel (itemsChars ts ++ [']']) = some ts := by
  intro ts
  induction ts with
  | nil => intro h; exact absurd rfl h
  | cons t ts' ih =>
      intro _ fuel hfuel
      cases fuel with
      | zero => simp at hfuel
      | succ f =>
          cases ts' with
          | nil =>
              simp only [itemsChars, parseItems]
              rw [parseTask_taskChars t [']']]
              simp
          | cons t2 ts'' =>
              simp only [itemsChars, parseItems, List.append_assoc, List.cons_append]
              rw [parseTask_taskChars t (',' :: (itemsChars (t2 :: ts'') ++ [']']))]
              simp only [Option.some_bind]
              have hr1 : (',' == ']') = false := by decide
              have hr2 : (',' == ',') = true := by decide
              simp only [hr1, Bool.false_eq_true, if_false, hr2, if_true]
              rw [ih (by simp) f (by simp only [List.length_cons] at hfuel ⊢; omega)]
              simp

/-- Deserializing a stored snapshot recovers exactly the serialized
collection: `deserializeTasks` is a left inverse of `serializeTasks`. -/
theorem deser_ser (ts : List Task) : deserializeTasks (serializeTasks ts) = some ts := by
  cases ts with
  | nil => simp [deserializeTasks, serializeTasks, itemsChars, String.toList]
  | cons t ts' =>
      have hne : itemsChars (t :: ts') ≠ [] := by
        have := itemsChars_length_ge (t :: ts') (by simp)
        intro h
        rw [h] at this
        simp at this
      have hrest : itemsChars (t :: ts') ++ [']'] ≠ [']'] := by
        intro h
        have : (itemsChars (t :: ts') ++ [']']).length = 1 := by rw [h]; rfl
        simp only [List.length_append, List.length_singleton] at this
        exact hne (List.length_eq_zero.mp (by omega))
      show (match ('[' :: (itemsChars (t :: ts') ++ [']']) : List Char) with
    | '[' :: rest => if rest = [']'] then some [] else parseItems rest.length rest
    | _ => none) = some (t :: ts')
      simp only [if_neg hrest]
      exact parseItems_itemsChars (t :: ts') (by simp) _
        (Nat.le_trans (itemsChars_length_ge _ (by simp)) (by simp))

/-- A serialized snapshot is never the empty (falsy) string. -/
theorem serializeTasks_ne_empty (ts : List Task) : serializeTasks ts ≠ "" := by
  intro h
  have : ('[' :: itemsChars ts ++ [']'] : List Char) = [] :=
    congrArg String.toList h
  simp at this

/-! ### Behaviour of the list handler on hit and miss -/

theorem listAll_hit_eq (s : St) (ts : List Task) (ttl : Nat)
    (h : s.cache = some ⟨serializeTasks ts, ttl⟩) :
    listAll noFaults s = (⟨200, Body.tasksB ts⟩, s, [Ev.cacheGet]) := by
  have hg : noFaults.getFails = false := rfl
  simp only [listAll, hg, Bool.false_eq_true, if_false, h]
  simp only [if_neg (serializeTasks_ne_empty ts), deser_ser]

theorem listAll_miss_eq (s : St) (h : s.cache = none) :
    listAll noFaults s =
      (⟨200, Body.tasksB s.sot⟩,
       { s with cache := some ⟨serializeTasks s.sot, 3600⟩ },
       [Ev.cacheGet, Ev.sotFindAll, Ev.cacheSet cacheKey 3600 (serializeTasks s.sot)]) := by
  simp [listAll, listMiss, noFaults, h]

/-! ### Concrete fixtures used by the witnesses -/

/-- A sample task row. -/
def wTask : Task := ⟨1, "buy milk", false⟩

/-- A sample state with a cold cache. -/
def wSt : St := ⟨[wTask], 2, none⟩

/-- A sample state whose cache holds the serialized snapshot of its SoT. -/
def wStHit : St := ⟨[wTask], 2, some ⟨serializeTasks [wTask], 3600⟩⟩

/-! ### The claims -/

/-- Claim C1: in every state where the snapshot key holds a stored snapshot, the
list handler returns the deserialized snapshot, leaves the state unchanged,
and its only backing-system interaction is the cache read — the SoT is not
consulted. -/
theorem listAll_hit_serves_snapshot (s : St) (ts : List Task) (ttl : Nat)
    (h : s.cache = some ⟨serializeTasks ts, ttl⟩) :
    listAll noFaults s = (⟨200, Body.tasksB ts⟩, s, [Ev.cacheGet]) ∧
    Ev.sotFindAll ∉ (listAll noFaults s).2.2 := by
  have he := listAll_hit_eq s ts ttl h
  refine ⟨he, ?_⟩
  rw [he]
  simp

theorem listAll_hit_serves_snapshot_witness :
    listAll noFaults wStHit = (⟨200, Body.tasksB [wTask]⟩, wStHit, [Ev.cacheGet]) ∧
    Ev.sotFindAll ∉ (listAll noFaults wStHit).2.2 :=
  listAll_hit_serves_snapshot wStHit [wTask] 3600 rfl

/-- Claim C2: in every state where the snapshot key is absent, the list handler
queries the SoT for all records, writes the serialized result under the
snapshot key with a fixed 3600-second expiry, and returns the freshly
fetched sequence. -/
theorem listAll_miss_fills_cache (s : St) (h : s.cache = none) :
    listAll noFaults s =
      (⟨200, Body.tasksB s.sot⟩,
       { s with cache := some ⟨serializeTasks s.sot, 3600⟩ },
       [Ev.cacheGet, Ev.sotFindAll, Ev.cacheSet cacheKey 3600 (serializeTasks s.sot)]) :=
  listAll_miss_eq s h

theorem listAll_miss_fills_cache_witness :
    listAll noFaults wSt =
      (⟨200, Body.tasksB wSt.sot⟩,
       { wSt with cache := some ⟨serializeTasks wSt.sot, 3600⟩ },
       [Ev.cacheGet, Ev.sotFindAll, Ev.cacheSet cacheKey 3600 (serializeTasks wSt.sot)]) :=
  listAll_miss_fills_cache wSt rfl

/-- Claim C3: after every successful create, update or delete the snapshot key is
absent from the cache: the handlers mutate the SoT first and then
unconditionally delete the snapshot key. -/
theorem mutations_evict_snapshot (f : CacheFaults) (s : St) (d : Option String)
    (c : Option Bool) (id : Nat) (ud : Option String) (uc : Option Bool) :
    ((createT f s d c).1.status = 201 → (createT f s d c).2.1.cache = none) ∧
    ((updateT f s id ud uc).1.status = 200 → (updateT f s id ud uc).2.1.cache = none) ∧
    ((deleteT f s id).1.status = 204 → (deleteT f s id).2.1.cache = none) := by
  refine ⟨?_, ?_, ?_⟩
  · simp only [createT]
    split
    · intro h; simp at h
    · split
      · intro h; simp at h
      · intro _; rfl
  · simp only [updateT]
    split
    · intro h; simp at h
    · split
      · intro h; simp at h
      · intro _; rfl
  · simp only [deleteT]
    split
    · split
      · intro h; simp at h
      · intro _; rfl
    · intro h; simp at h

theorem mutations_evict_snapshot_witness :
    (createT noFaults wSt (some "buy bread") none).2.1.cache = none ∧
    (updateT noFaults wSt 1 (some "x") (some true)).2.1.cache = none ∧
    (deleteT noFaults wSt 1).2.1.cache = none :=
  ⟨(mutations_evict_snapshot noFaults wSt (some "buy bread") none 1 (some "x")
      (some true)).1 (by decide),
   (mutations_evict_snapshot noFaults wSt (some "buy bread") none 1 (some "x")
      (some true)).2.1 (by decide),
   (mutations_evict_snapshot noFaults wSt (some "buy bread") none 1 (some "x")
      (some true)).2.2 (by decide)⟩

/-- Claim C4: a create whose description is missing or empty answers 400 with a
client error and performs no side effect: neither the SoT nor the cache is
touched and no backing-system event happens. -/
theorem create_invalid_no_side_effects (f : CacheFaults) (s : St) (d : Option String)
    (c : Option Bool) (h : descFalsy d = true) :
    createT f s d c = (⟨400, Body.errB "Descrição obrigatória"⟩, s, []) := by
  simp [createT, h]

theorem create_invalid_no_side_effects_witness :
    createT noFaults wSt none none = (⟨400, Body.errB "Descrição obrigatória"⟩, wSt, []) :=
  create_invalid_no_side_effects noFaults wSt none none rfl

/-- Claim C5: for an identifier absent from the SoT, get, update and delete answer
404 and leave the state — in particular the snapshot key — untouched; no
cache eviction is performed. -/
theorem notfound_preserves_cache (f : CacheFaults) (s : St) (id : Nat)
    (d : Option String) (c : Option Bool) (h : ∀ t ∈ s.sot, t.id ≠ id) :
    getOne s id = (⟨404, Body.errB "Tarefa não encontrada"⟩, s, [Ev.sotFindByPk id]) ∧
    updateT f s id d c = (⟨404, Body.errB "Tarefa não encontrada"⟩, s, [Ev.sotFindByPk id]) ∧
    deleteT f s id = (⟨404, Body.errB "Tarefa não encontrada"⟩, s, [Ev.sotDestroy id]) := by
  have hfind : s.sot.find? (fun t => t.id == id) = none := by
    rw [List.find?_eq_none]
    intro t ht
    simpa using h t ht
  have hany : s.sot.any (fun t => t.id == id) = false := by
    rw [← Bool.not_eq_true, List.any_eq_true]
    rintro ⟨t, ht, he⟩
    exact h t ht (by simpa using he)
  exact ⟨by simp [getOne, hfind], by simp [updateT, hfind], by simp [deleteT, hany]⟩

theorem notfound_preserves_cache_witness :
    getOne wStHit 999 = (⟨404, Body.errB "Tarefa não encontrada"⟩, wStHit, [Ev.sotFindByPk 999]) ∧
    updateT noFaults wStHit 999 none none =
      (⟨404, Body.errB "Tarefa não encontrada"⟩, wStHit, [Ev.sotFindByPk 999]) ∧
    deleteT noFaults wStHit 999 =
      (⟨404, Body.errB "Tarefa não encontrada"⟩, wStHit, [Ev.sotDestroy 999]) :=
  notfound_preserves_cache noFaults wStHit 999 none none (by decide)

/-- Claim C6: a cache failure during the list handler — on the lookup or on the
snapshot write — makes the whole operation fail with an internal error
instead of being treated as a miss that falls back to the SoT: a failed
lookup answers 500 before the SoT is ever queried, and a failed snapshot
write answers 500 instead of returning the fetched data. -/
theorem listAll_cache_failure_fails_closed (f : CacheFaults) (s : St) :
    (f.getFails = true →
      listAll f s = (⟨500, Body.errB "Erro ao buscar tarefas"⟩, s, [Ev.cacheGet])) ∧
    (f.getFails = false → f.setFails = true → s.cache = none →
      listAll f s = (⟨500, Body.errB "Erro ao buscar tarefas"⟩, s,
        [Ev.cacheGet, Ev.sotFindAll, Ev.cacheSet cacheKey 3600 (serializeTasks s.sot)])) := by
  constructor
  · intro hg
    simp [listAll, hg]
  · intro hg hs hc
    simp [listAll, listMiss, hg, hs, hc]

theorem listAll_cache_failure_fails_closed_witness :
    listAll ⟨true, false, false⟩ wStHit =
      (⟨500, Body.errB "Erro ao buscar tarefas"⟩, wStHit, [Ev.cacheGet]) ∧
    listAll ⟨false, true, false⟩ wSt =
      (⟨500, Body.errB "Erro ao buscar tarefas"⟩, wSt,
       [Ev.cacheGet, Ev.sotFindAll, Ev.cacheSet cacheKey 3600 (serializeTasks wSt.sot)]) :=
  ⟨(listAll_cache_failure_fails_closed ⟨true, false, false⟩ wStHit).1 rfl,
   (listAll_cache_failure_fails_closed ⟨false, true, false⟩ wSt).2 rfl rfl rfl⟩

/-- Claim C7: when the snapshot eviction fails after the SoT mutation already
succeeded, each mutating handler surfaces an internal error to the caller
while the SoT mutation remains in place. -/
theorem eviction_failure_surfaces_error (f : CacheFaults) (s : St) (d : String)
    (c : Option Bool) (id : Nat) (ud : Option String) (uc : Option Bool) (t : Task)
    (hdel : f.delFails = true) :
    (d ≠ "" →
      (createT f s (some d) c).1.status = 500 ∧
      (createT f s (some d) c).2.1.sot = s.sot ++ [⟨s.nextId, d, false⟩]) ∧
    (s.sot.find? (fun u => u.id == id) = some t →
      (updateT f s id ud uc).1.status = 500 ∧
      (updateT f s id ud uc).2.1.sot =
        s.sot.map (fun u => if u.id == id then
          (⟨t.id, ud.getD t.description, uc.getD t.completed⟩ : Task) else u)) ∧
    (s.sot.any (fun u => u.id == id) = true →
      (deleteT f s id).1.status = 500 ∧
      (deleteT f s id).2.1.sot = s.sot.filter (fun u => !(u.id == id))) := by
  refine ⟨?_, ?_, ?_⟩
  · intro hd
    have hb : (d == "") = false := by simpa using hd
    simp [createT, descFalsy, hb, hdel]
  · intro hfind
    simp [updateT, hfind, hdel]
  · intro hany
    simp [deleteT, hany, hdel]

theorem eviction_failure_surfaces_error_witness :
    ((createT ⟨false, false, true⟩ wSt (some "x") none).1.status = 500 ∧
     (createT ⟨false, false, true⟩ wSt (some "x") none).2.1.sot =
       wSt.sot ++ [⟨wSt.nextId, "x", false⟩]) ∧
    ((updateT ⟨false, false, true⟩ wSt 1 (some "y") (some true)).1.status = 500 ∧
     (updateT ⟨false, false, true⟩ wSt 1 (some "y") (some true)).2.1.sot =
       wSt.sot.map (fun u => if u.id == 1 then
         (⟨wTask.id, (some "y").getD wTask.description,
           (some true).getD wTask.completed⟩ : Task) else u)) ∧
    ((deleteT ⟨false, false, true⟩ wSt 1).1.status = 500 ∧
     (deleteT ⟨false, false, true⟩ wSt 1).2.1.sot =
       wSt.sot.filter (fun u => !(u.id == 1))) :=
  ⟨(eviction_failure_surfaces_error ⟨false, false, true⟩ wSt "x" none 1 (some "y")
      (some true) wTask rfl).1 (by decide),
   (eviction_failure_surfaces_error ⟨false, false, true⟩ wSt "x" none 1 (some "y")
      (some true) wTask rfl).2.1 (by decide),
   (eviction_failure_surfaces_error ⟨false, false, true⟩ wSt "x" none 1 (some "y")
      (some true) wTask rfl).2.2 (by decide)⟩

/-- Claim C8: a create with a non-empty description inserts a new task with
`completed = false` and the SoT-assigned identifier into the SoT, evicts the
snapshot key, and answers 201 with the newly created record. -/
theorem create_inserts_and_evicts (s : St) (d : String) (c : Option Bool) (h : d ≠ "") :
    createT noFaults s (some d) c =
      (⟨201, Body.taskB ⟨s.nextId, d, false⟩⟩,
       ⟨s.sot ++ [⟨s.nextId, d, false⟩], s.nextId + 1, none⟩,
       [Ev.sotInsert, Ev.cacheDel cacheKey]) := by
  have hb : (d == "") = false := by simpa using h
  simp [createT, descFalsy, hb, noFaults]

theorem create_inserts_and_evicts_witness :
    createT noFaults wSt (some "buy bread") none =
      (⟨201, Body.taskB ⟨wSt.nextId, "buy bread", false⟩⟩,
       ⟨wSt.sot ++ [⟨wSt.nextId, "buy bread", false⟩], wSt.nextId + 1, none⟩,
       [Ev.sotInsert, Ev.cacheDel cacheKey]) :=
  create_inserts_and_evicts wSt "buy bread" none (by decide)

/-- Claim C9: after a list miss fills the cache, a second list call with no
intervening mutation serves the cache hit: it sends byte-identical
serialized content (deserializing the stored snapshot and re-serializing it
is the identity on the stored bytes), answers 200, and does not query the
SoT. -/
theorem listAll_refill_then_hit_byte_identical (s : St) (h : s.cache = none) :
    renderBody (listAll noFaults (listAll noFaults s).2.1).1.body
      = renderBody (listAll noFaults s).1.body ∧
    (listAll noFaults (listAll noFaults s).2.1).1.status = 200 ∧
    Ev.sotFindAll ∉ (listAll noFaults (listAll noFaults s).2.1).2.2 := by
  have h1 := listAll_miss_eq s h
  have h2 : (listAll noFaults s).2.1.cache = some ⟨serializeTasks s.sot, 3600⟩ := by
    rw [h1]
  have h3 := listAll_hit_eq (listAll noFaults s).2.1 s.sot 3600 h2
  rw [h3, h1]
  simp

theorem listAll_refill_then_hit_byte_identical_witness :
    renderBody (listAll noFaults (listAll noFaults wSt).2.1).1.body
      = renderBody (listAll noFaults wSt).1.body ∧
    (listAll noFaults (listAll noFaults wSt).2.1).1.status = 200 ∧
    Ev.sotFindAll ∉ (listAll noFaults (listAll noFaults wSt).2.1).2.2 :=
  listAll_refill_then_hit_byte_identical wSt rfl

/-- Claim C10: the create handler never reads the request's `completed` field —
two create requests differing only in that field behave identically — and a
valid create always inserts the record with `completed = false`, so the only
request field that influences the created record is `description`. -/
theorem create_ignores_completed_field (f : CacheFaults) (s : St) (d : Option String)
    (c1 c2 : Option Bool) :
    createT f s d c1 = createT f s d c2 ∧
    (descFalsy d = false →
      (createT f s d c1).2.1.sot = s.sot ++ [⟨s.nextId, d.getD "", false⟩]) := by
  refine ⟨rfl, ?_⟩
  intro h
  simp only [createT, h, Bool.false_eq_true, if_false]
  split <;> rfl

theorem create_ignores_completed_field_witness :
    createT noFaults wSt (some "a") (some true) = createT noFaults wSt (some "a") none ∧
    (createT noFaults wSt (some "a") (some true)).2.1.sot =
      wSt.sot ++ [⟨wSt.nextId, (some "a").getD "", false⟩] :=
  ⟨(create_ignores_completed_field noFaults wSt (some "a") (some true) none).1,
   (create_ignores_completed_field noFaults wSt (some "a") (some true) none).2 rfl⟩

end CacheAside
